import Mathlib

/-!
Verification of the bittorrent client against its design spec.
Shallow embedding of the source (src/src/main.rs, src/src/torrent.rs):
pure Rust functions become Lean functions, panicking paths (assert!,
todo!, out-of-range slicing) become a distinguished `panicked`
constructor of the operation's outcome type, fallible paths become
`Except`/`Option` values.  usize arithmetic is modelled by `Nat`.
-/

set_option maxRecDepth 10000

/-- BLOCK_MAX from main.rs line 17: `const BLOCK_MAX: usize = 1 << 14;`
(written here as the literal 16384 = 2^14). -/
def BLOCK_MAX : Nat := 16384

/-- Number of blocks of the DownloadPiece loop, main.rs line 303:
`let nblocks = (piece_size + (BLOCK_MAX - 1)) / BLOCK_MAX;`. -/
def nblocks (piece_size : Nat) : Nat := (piece_size + (BLOCK_MAX - 1)) / BLOCK_MAX

/-- Size of block number `block` in the DownloadPiece loop, main.rs lines 307-316:
the last block gets `piece_size % BLOCK_MAX` (or `BLOCK_MAX` when that
remainder is zero), every other block gets `BLOCK_MAX`. -/
def block_size (piece_size block : Nat) : Nat :=
  if block = nblocks piece_size - 1 then
    let md := piece_size % BLOCK_MAX
    if md = 0 then BLOCK_MAX else md
  else BLOCK_MAX

/-- The list of block sizes produced by iterating `for block in 0..nblocks`. -/
def blockSizes (piece_size : Nat) : List Nat :=
  (List.range (nblocks piece_size)).map (block_size piece_size)

/-- The (pieceIndex, byteOffset, length) triples of the Request messages sent by
the loop, main.rs lines 318-322: `Request::new(piece_i as u32,
(block * BLOCK_MAX) as u32, block_size as u32)`, in loop order.  The values are
the usize-level ones computed by the loop (they are also the ones the response
validation at lines 341-343 compares against). -/
def blockRequests (piece_i piece_size : Nat) : List (Nat × Nat × Nat) :=
  (List.range (nblocks piece_size)).map
    (fun block => (piece_i, block * BLOCK_MAX, block_size piece_size block))

/-- Piece size for piece index `piece_i`, main.rs lines 292-301: the last piece
(index `npieces - 1`, where `npieces = t.info.pieces.0.len()`) gets
`length % plength` (or `plength` if that remainder is zero), every other
piece gets `plength`. -/
def piece_size (length plength npieces piece_i : Nat) : Nat :=
  if piece_i = npieces - 1 then
    let md := length % plength
    if md = 0 then plength else md
  else plength

/-- Truncation to 32 bits, the wrap-around of u32 arithmetic. -/
def w32 (n : Nat) : Nat := n % 4294967296

/-- Left rotation of a 32-bit word, as used by the SHA-1 compression function. -/
def rotl32 (k n : Nat) : Nat := ((n <<< k) % 4294967296) ||| (n >>> (32 - k))

/-- Big-endian byte rendering of `n` on `k` bytes. -/
def toBytesBE (k n : Nat) : List Nat :=
  (List.range k).map (fun i => (n >>> (8 * (k - 1 - i))) % 256)

/-- Fuelled worker for `chunksExact`; the fuel only bounds the iteration count
(the input length is always enough fuel, since each step consumes k ≥ 1
elements). -/
def chunksExactGo (k : Nat) : Nat → List Nat → List (List Nat)
  | 0, _ => []
  | fuel + 1, xs =>
    if k = 0 ∨ xs.length < k then []
    else xs.take k :: chunksExactGo k fuel (xs.drop k)

/-- Model of Rust slice `chunks_exact(k)`: the maximal list of consecutive
`k`-element chunks; a remainder shorter than `k` is dropped. -/
def chunksExact (k : Nat) (xs : List Nat) : List (List Nat) :=
  chunksExactGo k xs.length xs

/-- SHA-1 (sha1 crate as called by torrent.rs and main.rs): 32-bit words of a
64-byte block, big-endian. -/
def wordsOfBlock (blk : List Nat) : List Nat :=
  (chunksExact 4 blk).map
    (fun c => c.getD 0 0 * 16777216 + c.getD 1 0 * 65536 + c.getD 2 0 * 256 + c.getD 3 0)

/-- SHA-1 message-schedule extension: append `k` more words, each the rotation
by 1 of the xor of the words 3, 8, 14 and 16 positions back. -/
def extendW : Nat → List Nat → List Nat
  | 0, ws => ws
  | k + 1, ws =>
    let n := ws.length
    extendW k (ws ++ [rotl32 1 (Nat.xor (Nat.xor (ws.getD (n - 3) 0) (ws.getD (n - 8) 0))
      (Nat.xor (ws.getD (n - 14) 0) (ws.getD (n - 16) 0)))])

/-- SHA-1 round function selection. -/
def sha1F (i b c d : Nat) : Nat :=
  if i < 20 then (b &&& c) ||| ((Nat.xor b 4294967295) &&& d)
  else if i < 40 then Nat.xor (Nat.xor b c) d
  else if i < 60 then (b &&& c) ||| (b &&& d) ||| (c &&& d)
  else Nat.xor (Nat.xor b c) d

/-- SHA-1 round constants. -/
def sha1K (i : Nat) : Nat :=
  if i < 20 then 1518500249
  else if i < 40 then 1859775393
  else if i < 60 then 2400959708
  else 3395469782

/-- One SHA-1 round: state is (a, b, c, d, e), input is (round index, word). -/
def sha1Step (st : Nat × Nat × Nat × Nat × Nat) (iw : Nat × Nat) :
    Nat × Nat × Nat × Nat × Nat :=
  let a := st.1
  let b := st.2.1
  let c := st.2.2.1
  let d := st.2.2.2.1
  let e := st.2.2.2.2
  let temp := w32 (rotl32 5 a + sha1F iw.1 b c d + e + sha1K iw.1 + iw.2)
  (temp, a, rotl32 30 b, c, d)

/-- SHA-1 compression of one 64-byte block into the running hash state. -/
def processBlock (h : Nat × Nat × Nat × Nat × Nat) (blk : List Nat) :
    Nat × Nat × Nat × Nat × Nat :=
  let ws := extendW 64 (wordsOfBlock blk)
  let r := (List.zip (List.range 80) ws).foldl sha1Step h
  (w32 (h.1 + r.1), w32 (h.2.1 + r.2.1), w32 (h.2.2.1 + r.2.2.1),
    w32 (h.2.2.2.1 + r.2.2.2.1), w32 (h.2.2.2.2 + r.2.2.2.2))

/-- SHA-1 digest of a byte sequence (the `Sha1::new / update / finalize` calls
of torrent.rs and main.rs): pad with 0x80, zeros and the 64-bit big-endian bit
length to a multiple of 64 bytes, compress each block, emit the five state
words big-endian — a 20-byte digest. -/
def sha1 (msg : List Nat) : List Nat :=
  let padded := msg ++ 128 :: List.replicate ((119 - msg.length % 64) % 64) 0
    ++ toBytesBE 8 (msg.length * 8)
  let h := (chunksExact 64 padded).foldl processBlock
    (1732584193, 4023233417, 2562383102, 271733878, 3285377520)
  toBytesBE 4 h.1 ++ toBytesBE 4 h.2.1 ++ toBytesBE 4 h.2.2.1
    ++ toBytesBE 4 h.2.2.2.1 ++ toBytesBE 4 h.2.2.2.2

/-- File entry of a multi-file torrent (torrent.rs `File`): length in bytes and
path segments (each segment a byte string, modelled as its UTF-8 bytes). -/
structure File where
  length : Nat
  path : List (List Nat)

/-- torrent.rs `Keys`: either a single-file `length` or a multi-file `files`
list (serde(untagged)). -/
inductive Keys
  | SingleFile (length : Nat)
  | MultiFile (files : List File)

/-- torrent.rs `Info`: name (modelled as its UTF-8 bytes), piece length,
piece hashes (each 20 bytes when parsed via `Hashes`), and the layout keys. -/
structure Info where
  name : List Nat
  plength : Nat
  pieces : List (List Nat)
  keys : Keys

/-- torrent.rs `Torrent`: announce URL (as bytes) and the info dictionary. -/
structure Torrent where
  announce : List Nat
  info : Info

/-- UTF-8 bytes of an ASCII string literal (helper for bencode keys). -/
def asciiBytes (s : String) : List Nat := s.toList.map Char.toNat

/-- Decimal digits of `n` as bytes. -/
def natDecimalBytes (n : Nat) : List Nat := (Nat.toDigits 10 n).map Char.toNat

/-- Bencode integer encoding i<decimal>e (serde_bencode on a usize field). -/
def encInt (n : Nat) : List Nat := 105 :: (natDecimalBytes n ++ [101])

/-- Bencode byte-string encoding <len>:<bytes> (serde_bencode on strings and
byte buffers). -/
def encBytes (b : List Nat) : List Nat := natDecimalBytes b.length ++ 58 :: b

/-- serde_bencode encoding of a `File` struct: a dictionary with its entries in
sorted key order, length then path. -/
def encodeFile (f : File) : List Nat :=
  100 :: (encBytes (asciiBytes "length") ++ encInt f.length
    ++ encBytes (asciiBytes "path")
    ++ (108 :: ((f.path.map encBytes).flatten ++ [101]))) ++ [101]

/-- serde_bencode encoding of the flattened `Keys` entry of `Info`: either the
"length" integer or the "files" list. -/
def encodeKeys (k : Keys) : List Nat :=
  match k with
  | .SingleFile length => encBytes (asciiBytes "length") ++ encInt length
  | .MultiFile files =>
      encBytes (asciiBytes "files") ++ (108 :: ((files.map encodeFile).flatten ++ [101]))

/-- serde_bencode::to_bytes(&info) (torrent.rs line 17): a dictionary whose
entries appear in sorted key order — the flattened key ("files" or "length")
first, then "name", "piece length", "pieces"; `pieces` serializes as the
concatenation of the 20-byte hashes (torrent.rs `Hashes::serialize`). -/
def encodeInfo (i : Info) : List Nat :=
  100 :: (encodeKeys i.keys
    ++ encBytes (asciiBytes "name") ++ encBytes i.name
    ++ encBytes (asciiBytes "piece length") ++ encInt i.plength
    ++ encBytes (asciiBytes "pieces") ++ encBytes i.pieces.flatten) ++ [101]

/-- Torrent::info_hash (torrent.rs lines 16-23): re-encode the info
sub-structure with the bencode encoder and SHA-1 it.  The source wraps the
result in a `Result` whose error cases (serialization failure, digest not 20
bytes) are impossible for this data model, so the model returns the digest
directly; nothing is cached — the digest is recomputed from the encoding on
every call. -/
def Torrent.info_hash (t : Torrent) : List Nat := sha1 (encodeInfo t.info)

/-- HashesVisitor::visit_bytes (torrent.rs lines 94-107): reject a byte string
whose length is not a multiple of 20, otherwise cut it into the consecutive
20-byte piece hashes. -/
def visit_bytes (v : List Nat) : Except String (List (List Nat)) :=
  if v.length % 20 ≠ 0 then Except.error ("length is " ++ toString v.length)
  else Except.ok (chunksExact 20 v)

/-- Outcome of the verify-and-write tail of DownloadPiece (main.rs lines
347-360): either the piece bytes are written to the output file, or an
`assert_eq!` fails, which aborts the process (modelled as `panicked`). -/
inductive VerifyOut
  | written (bytes : List Nat)
  | panicked
deriving DecidableEq

/-- Verify-and-write tail of DownloadPiece, main.rs lines 347-357:
`assert_eq!(all_blocks.len(), piece_size)`, then hash `all_blocks` with SHA-1
and `assert_eq!(&hash, piece_hash)`, then write the bytes out.  The asserts
panic on failure; only on success is the write reached. -/
def verify_and_write (pieceSz : Nat) (all_blocks piece_hash : List Nat) : VerifyOut :=
  if all_blocks.length ≠ pieceSz then VerifyOut.panicked
  else if sha1 all_blocks ≠ piece_hash then VerifyOut.panicked
  else VerifyOut.written all_blocks

/-- Outcome of one Piece-response validation step (main.rs lines 331-344):
either the block bytes are appended to `all_blocks`, or an assert fails and the
process aborts with the buffer in the state it had (nothing appended). -/
inductive BlockOut
  | appended (buf : List Nat)
  | panicked (buf : List Nat)
deriving DecidableEq

/-- Piece-response validation of the block loop, main.rs lines 341-344:
`assert_eq!(piece.index() as usize, piece_i)`,
`assert_eq!(piece.begin() as usize, block * BLOCK_MAX)`,
`assert_eq!(piece.block().len(), block_size)`, then
`all_blocks.extend(piece.block())`.  `msgIndex`, `msgBegin`, `msgBlock` are the
fields of the received Piece message; a failed assert aborts with the buffer
unchanged. -/
def process_piece_msg (piece_i block block_sz : Nat)
    (msgIndex msgBegin : Nat) (msgBlock : List Nat) (all_blocks : List Nat) : BlockOut :=
  if msgIndex ≠ piece_i then BlockOut.panicked all_blocks
  else if msgBegin ≠ block * BLOCK_MAX then BlockOut.panicked all_blocks
  else if msgBlock.length ≠ block_sz then BlockOut.panicked all_blocks
  else BlockOut.appended (all_blocks ++ msgBlock)

/-- Modelled from the spec: the `Handshake` struct lives in the `peer` module,
which lib.rs declares but which is absent from src/.  Per spec section 4.4 it
is the fixed 68-byte record {length: u8 = 19, bittorrent: 19 protocol-string
bytes, reserved: 8 zero bytes, info_hash: 20 bytes, peer_id: 20 bytes}; the
fields below are the ones main.rs reads (`handshake.length`,
`handshake.bittorrent`, `handshake.peer_id`). -/
structure Handshake where
  length : Nat
  bittorrent : List Nat
  reserved : List Nat
  info_hash : List Nat
  peer_id : List Nat

/-- The 19 bytes of "BitTorrent protocol". -/
def protocolBytes : List Nat := asciiBytes "BitTorrent protocol"

/-- Outcome of the handshake-response validation: the peer id on success,
or an aborted process (failed `assert_eq!`). -/
inductive HsOut
  | ok (peer_id : List Nat)
  | panicked
deriving DecidableEq

/-- Handshake-response validation, main.rs lines 207-209 (Handshake command;
the DownloadPiece command repeats it at lines 263-264):
`assert_eq!(handshake.length, 19)`,
`assert_eq!(&handshake.bittorrent, b"BitTorrent protocol")`, then the peer id
is used.  A failed assert aborts the process. -/
def validate_handshake (resp : Handshake) : HsOut :=
  if resp.length ≠ 19 then HsOut.panicked
  else if resp.bittorrent ≠ protocolBytes then HsOut.panicked
  else HsOut.ok resp.peer_id

/-- Outcome of a layout match on `Info.keys`: the single-file length, or the
`todo!()` panic. -/
inductive LayoutOut
  | ok (length : Nat)
  | panicked
deriving DecidableEq

/-- Layout match of the Info command, main.rs lines 132-135: single-file prints
the length, anything else hits `todo!()`. -/
def info_layout (k : Keys) : LayoutOut :=
  match k with
  | .SingleFile length => LayoutOut.ok length
  | .MultiFile _ => LayoutOut.panicked

/-- Layout match of the Peers command, main.rs lines 150-155: binds the
single-file length, anything else hits `todo!()`. -/
def peers_length (k : Keys) : LayoutOut :=
  match k with
  | .SingleFile length => LayoutOut.ok length
  | .MultiFile _ => LayoutOut.panicked

/-- Layout match of the DownloadPiece command, main.rs lines 219-223: binds the
single-file length via `if let`, anything else hits `todo!()`. -/
def download_length (k : Keys) : LayoutOut :=
  match k with
  | .SingleFile length => LayoutOut.ok length
  | .MultiFile _ => LayoutOut.panicked

/-- serde_json::Value as produced by decode_bencoded_value: integers, strings,
arrays and objects (objects hold their entries sorted by key, as
serde_json::Map with the default BTreeMap backend does). -/
inductive BValue
  | int (n : Int)
  | str (s : List Char)
  | arr (vs : List BValue)
  | obj (fields : List (List Char × BValue))

/-- Outcome of decode_bencoded_value: a decoded value together with the
unconsumed suffix, an `anyhow` error, a panic (out-of-range string slicing),
or exhaustion of the recursion fuel (never reached with the fuel supplied by
`decode_bencoded_value`). -/
inductive DecOut
  | ok (v : BValue) (rest : List Char)
  | err
  | panicked
  | fuelOut

/-- Rust `str::parse` digit run: at least one ASCII digit and nothing else. -/
def decDigits (ds : List Char) : Option Nat :=
  if ds.isEmpty then none
  else if ds.all (fun c => c.isDigit) then
    some (ds.foldl (fun a c => a * 10 + (c.toNat - 48)) 0)
  else none

/-- Rust `str::parse::<i64>`: optional sign, digits, failing outside the i64
range. -/
def parseI64 (s : List Char) : Option Int :=
  match s with
  | '-' :: ds =>
      (decDigits ds).bind (fun n =>
        if n ≤ 9223372036854775808 then some (-(n : Int)) else none)
  | '+' :: ds =>
      (decDigits ds).bind (fun n =>
        if n ≤ 9223372036854775807 then some ((n : Int)) else none)
  | ds =>
      (decDigits ds).bind (fun n =>
        if n ≤ 9223372036854775807 then some ((n : Int)) else none)

/-- Rust `str::parse::<usize>` (64-bit): optional plus sign, digits, failing
outside the usize range. -/
def parseUsize (s : List Char) : Option Nat :=
  match s with
  | '+' :: ds =>
      (decDigits ds).bind (fun n =>
        if n < 18446744073709551616 then some n else none)
  | ds =>
      (decDigits ds).bind (fun n =>
        if n < 18446744073709551616 then some n else none)

/-- Rust `str::split_once(sep)`: the parts before and after the first
occurrence of `sep`, or none if `sep` does not occur. -/
def splitOnce (sep : Char) : List Char → Option (List Char × List Char)
  | [] => none
  | c :: cs =>
      if c = sep then some ([], cs)
      else (splitOnce sep cs).map (fun p => (c :: p.1, p.2))

/-- Byte-wise lexicographic order on keys, the `Ord` of Rust `String` used by
the BTreeMap behind serde_json::Map. -/
def keyLt : List Char → List Char → Bool
  | [], [] => false
  | [], _ :: _ => true
  | _ :: _, [] => false
  | a :: as, b :: bs =>
      if a.toNat < b.toNat then true
      else if a.toNat = b.toNat then keyLt as bs
      else false

/-- BTreeMap::insert on a key-sorted association list: keep sorted order,
replace the value of an existing key. -/
def insertSorted (acc : List (List Char × BValue)) (k : List Char) (v : BValue) :
    List (List Char × BValue) :=
  match acc with
  | [] => [(k, v)]
  | (k0, v0) :: tl =>
      if keyLt k k0 then (k, v) :: (k0, v0) :: tl
      else if k = k0 then (k, v) :: tl
      else (k0, v0) :: insertSorted tl k v

mutual

/-- decode_bencoded_value (main.rs lines 50-104), fuelled for termination.
Matches the first character: 'i' parses `i<digits>e` via split_once('e') and
parse::<i64>; 'l' and 'd' run the list/dictionary loops; a digit splits the
whole input at the first ':' and parses the prefix as the length — then slices
`rest[..len]`, which PANICS when `len` exceeds the remaining length; anything
else (or empty input) is an error. -/
def decodeBencoded : Nat → List Char → DecOut
  | 0, _ => DecOut.fuelOut
  | fuel + 1, encoded =>
    match encoded with
    | [] => DecOut.err
    | c :: rest0 =>
      if c = 'i' then
        match splitOnce 'e' rest0 with
        | none => DecOut.err
        | some (digits, rest) =>
          match parseI64 digits with
          | none => DecOut.err
          | some n => DecOut.ok (BValue.int n) rest
      else if c = 'l' then decodeListLoop fuel [] rest0
      else if c = 'd' then decodeDictLoop fuel [] rest0
      else if c.isDigit then
        match splitOnce ':' encoded with
        | none => DecOut.err
        | some (lenStr, rest) =>
          match parseUsize lenStr with
          | none => DecOut.err
          | some len =>
            if len ≤ rest.length then DecOut.ok (BValue.str (rest.take len)) (rest.drop len)
            else DecOut.panicked
      else DecOut.err

/-- The list loop of decode_bencoded_value (main.rs lines 64-73): decode
values while the rest is nonempty and does not start with 'e'; afterwards take
`&rest[1..]`, which PANICS when the input was exhausted without a terminating
'e'. -/
def decodeListLoop : Nat → List BValue → List Char → DecOut
  | 0, _, _ => DecOut.fuelOut
  | fuel + 1, values, rest =>
    match rest with
    | [] => DecOut.panicked
    | c :: rest1 =>
      if c = 'e' then DecOut.ok (BValue.arr values) rest1
      else
        match decodeBencoded fuel rest with
        | DecOut.ok v remainder => decodeListLoop fuel (values ++ [v]) remainder
        | DecOut.err => DecOut.err
        | DecOut.panicked => DecOut.panicked
        | DecOut.fuelOut => DecOut.fuelOut

/-- The dictionary loop of decode_bencoded_value (main.rs lines 74-88): decode
a key and a value while the rest is nonempty and does not start with 'e';
non-string keys are an error; entries are inserted BTreeMap-style; afterwards
take `&rest[1..]`, which PANICS when the input was exhausted without a
terminating 'e'. -/
def decodeDictLoop : Nat → List (List Char × BValue) → List Char → DecOut
  | 0, _, _ => DecOut.fuelOut
  | fuel + 1, dict, rest =>
    match rest with
    | [] => DecOut.panicked
    | c :: rest1 =>
      if c = 'e' then DecOut.ok (BValue.obj dict) rest1
      else
        match decodeBencoded fuel rest with
        | DecOut.ok key r1 =>
          (match decodeBencoded fuel r1 with
           | DecOut.ok value r2 =>
             (match key with
              | BValue.str ks => decodeDictLoop fuel (insertSorted dict ks value) r2
              | _ => DecOut.err)
           | DecOut.err => DecOut.err
           | DecOut.panicked => DecOut.panicked
           | DecOut.fuelOut => DecOut.fuelOut)
        | DecOut.err => DecOut.err
        | DecOut.panicked => DecOut.panicked
        | DecOut.fuelOut => DecOut.fuelOut

end

/-- decode_bencoded_value on an input string: run the fuelled model with
ample fuel (each fuel unit either consumes a character or enters a nested
list/dict loop, so 2·length + 2 never runs out). -/
def decode_bencoded_value (s : List Char) : DecOut :=
  decodeBencoded (2 * s.length + 2) s

/-- A concrete torrent used to instantiate the info-hash theorem. -/
def sampleTorrent : Torrent :=
  { announce := asciiBytes "http://tracker.example/announce"
    info :=
      { name := asciiBytes "a"
        plength := 1
        pieces := [List.replicate 20 0]
        keys := Keys.SingleFile 1 } }

lemma sum_map_const (l : List Nat) (c : Nat) :
    (l.map (fun _ => c)).sum = l.length * c := by
  induction l with
  | nil => simp
  | cons a l ih => simp [ih, Nat.succ_mul, Nat.add_comm]

lemma blockSizes_sum (s : Nat) : (blockSizes s).sum = s := by
  unfold blockSizes
  rcases hn : nblocks s with _ | m
  · have : s = 0 := by
      unfold nblocks BLOCK_MAX at hn
      omega
    simp [this]
  · rw [List.range_succ, List.map_append, List.sum_append]
    have hmap : (List.range m).map (block_size s) = (List.range m).map (fun _ => BLOCK_MAX) := by
      apply List.map_congr_left
      intro i hi
      have him : i < m := List.mem_range.mp hi
      unfold block_size
      rw [hn]
      simp only [Nat.succ_sub_one]
      rw [if_neg (by omega)]
    rw [hmap, sum_map_const]
    have hlast : block_size s m = if s % BLOCK_MAX = 0 then BLOCK_MAX else s % BLOCK_MAX := by
      unfold block_size
      rw [hn]
      simp
    simp only [List.length_range, List.map_cons, List.map_nil, List.sum_cons,
      List.sum_nil, hlast]
    unfold nblocks BLOCK_MAX at hn
    unfold BLOCK_MAX
    split <;> omega

/-- C1: for every piece size s with 0 < s, the DownloadPiece block loop splits s
into exactly ceil(s / 16384) blocks; requests are issued in ascending offset
order with byteOffset = blockIndex * 16384; every block has length 16384 except
possibly the last, whose length is s mod 16384 (or 16384 if that remainder is
zero); for s = 20000 the blocks are [16384, 3616]; the block lengths sum to s. -/
theorem downloadPiece_block_split (s : Nat) (_hs : 0 < s) :
    (blockSizes s).length = s / BLOCK_MAX + (if s % BLOCK_MAX = 0 then 0 else 1) ∧
    (∀ piece_i b, b < nblocks s →
      (blockRequests piece_i s)[b]? = some (piece_i, b * BLOCK_MAX, block_size s b)) ∧
    List.Pairwise (fun x y => x < y) ((blockRequests 0 s).map (fun r => r.2.1)) ∧
    (∀ b, b + 1 < nblocks s → block_size s b = BLOCK_MAX) ∧
    block_size s (nblocks s - 1) =
      (if s % BLOCK_MAX = 0 then BLOCK_MAX else s % BLOCK_MAX) ∧
    (blockSizes s).sum = s ∧
    blockSizes 20000 = [16384, 3616] := by
  refine ⟨?_, ?_, ?_, ?_, ?_, blockSizes_sum s, by decide⟩
  · unfold blockSizes nblocks BLOCK_MAX
    simp only [List.length_map, List.length_range]
    split <;> omega
  · intro piece_i b hb
    unfold blockRequests
    rw [List.getElem?_map, List.getElem?_range hb]
    rfl
  · unfold blockRequests
    rw [List.map_map]
    have hcomp : ((fun r : Nat × Nat × Nat => r.2.1) ∘
        (fun block => ((0 : Nat), block * BLOCK_MAX, block_size s block))) =
        fun block => block * BLOCK_MAX := rfl
    rw [hcomp]
    refine List.Pairwise.map _ ?_ (List.pairwise_lt_range _)
    intro a b hab
    have hpos : 0 < BLOCK_MAX := by decide
    exact (Nat.mul_lt_mul_right hpos).mpr hab
  · intro b hb
    unfold block_size
    rw [if_neg (by omega)]
  · unfold block_size
    rw [if_pos rfl]

/-- Witness for C1 at s = 20000. -/
theorem downloadPiece_block_split_witness :
    0 < 20000 ∧ blockSizes 20000 = [16384, 3616] :=
  ⟨by decide, (downloadPiece_block_split 20000 (by decide)).2.2.2.2.2.2⟩

/-- C2: with piece count npieces = ceil(length / plength) and plength > 0, the
piece size equals plength for every index below npieces - 1; for the last index
it equals length mod plength when that remainder is nonzero and plength when the
remainder is zero; no piece ever has size zero; for length = 1000,
plength = 400 the last piece (index 2 of 3) has size 200. -/
theorem downloadPiece_piece_size (length plength npieces : Nat)
    (hp : 0 < plength)
    (hn : npieces = (length + plength - 1) / plength) :
    (∀ i, i + 1 < npieces → piece_size length plength npieces i = plength) ∧
    piece_size length plength npieces (npieces - 1) =
      (if length % plength = 0 then plength else length % plength) ∧
    (∀ i, 0 < piece_size length plength npieces i) ∧
    piece_size 1000 400 3 2 = 200 := by
  refine ⟨?_, ?_, ?_, by decide⟩
  · intro i hi
    unfold piece_size
    rw [if_neg (by omega)]
  · unfold piece_size
    rw [if_pos rfl]
  · intro i
    unfold piece_size
    by_cases hi : i = npieces - 1
    · rw [if_pos hi]
      show 0 < if length % plength = 0 then plength else length % plength
      split <;> omega
    · rw [if_neg hi]
      exact hp

/-- Witness for C2 at length = 1000, plength = 400, npieces = 3. -/
theorem downloadPiece_piece_size_witness :
    0 < 400 ∧ 3 = (1000 + 400 - 1) / 400 ∧ piece_size 1000 400 3 2 = 200 :=
  ⟨by decide, by decide,
    (downloadPiece_piece_size 1000 400 3 (by decide) (by decide)).2.2.2⟩

lemma toBytesBE_length (k n : Nat) : (toBytesBE k n).length = k := by
  simp [toBytesBE]

lemma sha1_length (msg : List Nat) : (sha1 msg).length = 20 := by
  simp [sha1, toBytesBE_length]

/-- C3: info_hash is deterministic — two calls on the same parsed metadata
value return the same digest, which is the SHA-1 of the bencode re-encoding of
the info sub-structure, a 20-byte digest; nothing is cached, the digest is
recomputed from the encoding (`info_hash t = sha1 (encodeInfo t.info)`
definitionally, on every call). -/
theorem info_hash_deterministic (t1 t2 : Torrent) (h : t1 = t2) :
    Torrent.info_hash t1 = Torrent.info_hash t2 ∧
    Torrent.info_hash t1 = sha1 (encodeInfo t1.info) ∧
    (Torrent.info_hash t1).length = 20 :=
  ⟨by rw [h], rfl, sha1_length _⟩

/-- Witness for C3 at a concrete torrent. -/
theorem info_hash_deterministic_witness :
    sampleTorrent = sampleTorrent ∧
    (Torrent.info_hash sampleTorrent = Torrent.info_hash sampleTorrent ∧
     Torrent.info_hash sampleTorrent = sha1 (encodeInfo sampleTorrent.info) ∧
     (Torrent.info_hash sampleTorrent).length = 20) :=
  ⟨rfl, info_hash_deterministic sampleTorrent sampleTorrent rfl⟩

/-- C4 counterexample: at piece contents [0] with an expected hash of twenty
zero bytes (a mismatch, first conjunct), the verify step of DownloadPiece does
not produce any recoverable CorruptPiece error value — the source has no such
value; its `assert_eq!(&hash, piece_hash)` fails, aborting the process
(second conjunct).  The bytes are indeed never written (third conjunct). -/
theorem corruptPiece_no_error_value_cx :
    sha1 [0] ≠ List.replicate 20 0 ∧
    verify_and_write 1 [0] (List.replicate 20 0) = VerifyOut.panicked ∧
    ∀ b, verify_and_write 1 [0] (List.replicate 20 0) ≠ VerifyOut.written b := by
  have h2 : verify_and_write 1 [0] (List.replicate 20 0) = VerifyOut.panicked := by decide
  refine ⟨by decide, h2, ?_⟩
  intro b hb
  rw [h2] at hb
  exact VerifyOut.noConfusion hb

/-- C4 (amended): for every completed block collection whose reassembled bytes
hash to a digest different from the expected piece hash, the download fails by
an assertion panic (process abort), not by returning a recoverable CorruptPiece
error value, and the mismatching bytes are never written to the output file. -/
theorem corruptPiece_aborts (pieceSz : Nat) (all_blocks piece_hash : List Nat)
    (h : sha1 all_blocks ≠ piece_hash) :
    verify_and_write pieceSz all_blocks piece_hash = VerifyOut.panicked ∧
    ∀ b, verify_and_write pieceSz all_blocks piece_hash ≠ VerifyOut.written b := by
  have key : verify_and_write pieceSz all_blocks piece_hash = VerifyOut.panicked := by
    unfold verify_and_write
    by_cases hl : all_blocks.length ≠ pieceSz
    · rw [if_pos hl]
    · rw [if_neg hl, if_pos h]
  refine ⟨key, ?_⟩
  intro b hb
  rw [key] at hb
  exact VerifyOut.noConfusion hb

/-- Witness for the amended C4 at piece contents [0] and an expected hash of
twenty zero bytes. -/
theorem corruptPiece_aborts_witness :
    sha1 [0] ≠ List.replicate 20 0 ∧
    (verify_and_write 1 [0] (List.replicate 20 0) = VerifyOut.panicked ∧
     ∀ b, verify_and_write 1 [0] (List.replicate 20 0) ≠ VerifyOut.written b) :=
  ⟨by decide, corruptPiece_aborts 1 [0] (List.replicate 20 0) (by decide)⟩

/-- C5 counterexample: a Piece response reporting pieceIndex 2 for a request
with pieceIndex 1 (block 0, requested length 5) does not make the download
fail with a ProtocolViolation error value — the source has no such value; its
`assert_eq!(piece.index() as usize, piece_i)` fails, aborting the process.
No bytes from the response are appended (the buffer stays []). -/
theorem pieceResponse_no_error_value_cx :
    process_piece_msg 1 0 5 2 0 [10, 11, 12, 13, 14] [] = BlockOut.panicked [] ∧
    ∀ b, process_piece_msg 1 0 5 2 0 [10, 11, 12, 13, 14] [] ≠ BlockOut.appended b := by
  have key : process_piece_msg 1 0 5 2 0 [10, 11, 12, 13, 14] [] = BlockOut.panicked [] := by
    decide
  refine ⟨key, ?_⟩
  intro b hb
  rw [key] at hb
  exact BlockOut.noConfusion hb

/-- C5 (amended): for every issued block request, if the corresponding Piece
response reports a pieceIndex, byteOffset, or block length different from what
was requested, the download aborts via an assertion panic (not a
ProtocolViolation error value), and no bytes from that response are appended to
the assembly buffer. -/
theorem pieceResponse_mismatch_aborts (piece_i block block_sz msgIndex msgBegin : Nat)
    (msgBlock all_blocks : List Nat)
    (h : msgIndex ≠ piece_i ∨ msgBegin ≠ block * BLOCK_MAX ∨ msgBlock.length ≠ block_sz) :
    process_piece_msg piece_i block block_sz msgIndex msgBegin msgBlock all_blocks =
      BlockOut.panicked all_blocks ∧
    ∀ b, process_piece_msg piece_i block block_sz msgIndex msgBegin msgBlock all_blocks ≠
      BlockOut.appended b := by
  have key : process_piece_msg piece_i block block_sz msgIndex msgBegin msgBlock all_blocks =
      BlockOut.panicked all_blocks := by
    unfold process_piece_msg
    by_cases h1 : msgIndex ≠ piece_i
    · rw [if_pos h1]
    · rw [if_neg h1]
      by_cases h2 : msgBegin ≠ block * BLOCK_MAX
      · rw [if_pos h2]
      · rw [if_neg h2]
        have h3 : msgBlock.length ≠ block_sz := by tauto
        rw [if_pos h3]
  refine ⟨key, ?_⟩
  intro b hb
  rw [key] at hb
  exact BlockOut.noConfusion hb

/-- Witness for the amended C5 at a response with mismatching pieceIndex. -/
theorem pieceResponse_mismatch_aborts_witness :
    ((2 : Nat) ≠ 1 ∨ (0 : Nat) ≠ 0 * BLOCK_MAX ∨ ([10, 11, 12, 13, 14] : List Nat).length ≠ 5) ∧
    (process_piece_msg 1 0 5 2 0 [10, 11, 12, 13, 14] [] = BlockOut.panicked [] ∧
     ∀ b, process_piece_msg 1 0 5 2 0 [10, 11, 12, 13, 14] [] ≠ BlockOut.appended b) :=
  ⟨Or.inl (by decide),
    pieceResponse_mismatch_aborts 1 0 5 2 0 [10, 11, 12, 13, 14] [] (Or.inl (by decide))⟩

/-- C6 counterexample: a handshake response whose first byte is 18 (not 19)
does not make the handshake fail with a recoverable ProtocolMismatch error
value — the source has no such value; its `assert_eq!(handshake.length, 19)`
fails, aborting the process. -/
theorem handshake_no_error_value_cx :
    validate_handshake
      ⟨18, protocolBytes, List.replicate 8 0, List.replicate 20 0, List.replicate 20 0⟩ =
      HsOut.panicked ∧
    ∀ p, validate_handshake
      ⟨18, protocolBytes, List.replicate 8 0, List.replicate 20 0, List.replicate 20 0⟩ ≠
      HsOut.ok p := by
  have key : validate_handshake
      ⟨18, protocolBytes, List.replicate 8 0, List.replicate 20 0, List.replicate 20 0⟩ =
      HsOut.panicked := by decide
  refine ⟨key, ?_⟩
  intro p hp
  rw [key] at hp
  exact HsOut.noConfusion hp

/-- C6 (amended): for every received handshake response whose first byte is not
19 or whose following 19 bytes are not exactly "BitTorrent protocol", the
handshake operation aborts the process via a failed assertion — it does not
return a recoverable ProtocolMismatch error value. -/
theorem handshake_mismatch_aborts (resp : Handshake)
    (h : resp.length ≠ 19 ∨ resp.bittorrent ≠ protocolBytes) :
    validate_handshake resp = HsOut.panicked ∧
    ∀ p, validate_handshake resp ≠ HsOut.ok p := by
  have key : validate_handshake resp = HsOut.panicked := by
    unfold validate_handshake
    by_cases h1 : resp.length ≠ 19
    · rw [if_pos h1]
    · rw [if_neg h1]
      have h2 : resp.bittorrent ≠ protocolBytes := by tauto
      rw [if_pos h2]
  refine ⟨key, ?_⟩
  intro p hp
  rw [key] at hp
  exact HsOut.noConfusion hp

/-- Witness for the amended C6 at a response with first byte 18. -/
theorem handshake_mismatch_aborts_witness :
    ((Handshake.mk 18 protocolBytes (List.replicate 8 0) (List.replicate 20 0)
        (List.replicate 20 0)).length ≠ 19 ∨
     (Handshake.mk 18 protocolBytes (List.replicate 8 0) (List.replicate 20 0)
        (List.replicate 20 0)).bittorrent ≠ protocolBytes) ∧
    (validate_handshake
        ⟨18, protocolBytes, List.replicate 8 0, List.replicate 20 0, List.replicate 20 0⟩ =
        HsOut.panicked ∧
     ∀ p, validate_handshake
        ⟨18, protocolBytes, List.replicate 8 0, List.replicate 20 0, List.replicate 20 0⟩ ≠
        HsOut.ok p) :=
  ⟨Or.inl (by decide),
    handshake_mismatch_aborts
      ⟨18, protocolBytes, List.replicate 8 0, List.replicate 20 0, List.replicate 20 0⟩
      (Or.inl (by decide))⟩

/-- C7: in the string arm of decode_bencoded_value, a declared length (here 5)
exceeding the number of characters remaining after the ':' separator does not
produce a Malformed decode error value: the slice `rest[..len]` is out of range
and the function PANICS.  (The claim that a decode error is returned fails on
the code; this theorem documents the actual panicking behaviour.) -/
theorem string_length_overrun_panics (rest : List Char) (h : rest.length < 5) :
    decode_bencoded_value ('5' :: ':' :: rest) = DecOut.panicked := by
  have h1 : decode_bencoded_value ('5' :: ':' :: rest) =
      if 5 ≤ rest.length then DecOut.ok (BValue.str (rest.take 5)) (rest.drop 5)
      else DecOut.panicked := rfl
  rw [h1, if_neg (by omega)]

/-- Witness for C7 at the input "5:abc" (declared length 5, 3 bytes remain). -/
theorem string_length_overrun_panics_witness :
    (['a', 'b', 'c'] : List Char).length < 5 ∧
    decode_bencoded_value ('5' :: ':' :: ['a', 'b', 'c']) = DecOut.panicked :=
  ⟨by decide, string_length_overrun_panics ['a', 'b', 'c'] (by decide)⟩

/-- C8: an input beginning with 'l' that is exhausted before a terminating 'e'
("l" itself, and "li3e" whose int is decoded but whose terminator is missing)
does not fail with a decode error value: after the loop the code takes
`&rest[1..]` on the empty remainder and PANICS.  (The claim that a decode error
is returned fails on the code; this theorem documents the actual panicking
behaviour.) -/
theorem list_unterminated_panics :
    decode_bencoded_value ['l'] = DecOut.panicked ∧
    decode_bencoded_value ['l', 'i', '3', 'e'] = DecOut.panicked :=
  ⟨rfl, rfl⟩

lemma chunksExactGo_spec (k : Nat) (hk : 0 < k) :
    ∀ fuel xs, xs.length ≤ fuel * k → k ∣ xs.length →
      (chunksExactGo k fuel xs).flatten = xs ∧
      (chunksExactGo k fuel xs).length = xs.length / k ∧
      ∀ c ∈ chunksExactGo k fuel xs, c.length = k := by
  intro fuel
  induction fuel with
  | zero =>
    intro xs hle hdvd
    have h0 : xs.length = 0 := by simpa using hle
    have hxs : xs = [] := List.length_eq_zero.mp h0
    subst hxs
    simp [chunksExactGo]
  | succ fuel ih =>
    intro xs hle hdvd
    unfold chunksExactGo
    by_cases hlt : xs.length < k
    · rw [if_pos (Or.inr hlt)]
      have h0 : xs.length = 0 := by
        by_contra hne
        have := Nat.le_of_dvd (Nat.pos_of_ne_zero hne) hdvd
        omega
      have hxs : xs = [] := List.length_eq_zero.mp h0
      subst hxs
      simp
    · have hcond : ¬ (k = 0 ∨ xs.length < k) := by omega
      rw [if_neg hcond]
      have hge : k ≤ xs.length := by omega
      have hlen : (xs.drop k).length = xs.length - k := by simp
      have hle2 : (xs.drop k).length ≤ fuel * k := by
        rw [hlen, Nat.succ_mul] at *
        omega
      have hdvd2 : k ∣ (xs.drop k).length := by
        rw [hlen]
        exact Nat.dvd_sub' hdvd dvd_rfl
      obtain ⟨ihf, ihl, ihm⟩ := ih (xs.drop k) hle2 hdvd2
      refine ⟨?_, ?_, ?_⟩
      · simp [ihf]
      · simp only [List.length_cons, ihl, hlen]
        rw [Nat.div_eq_sub_div hk hge]
      · intro c hc
        rcases List.mem_cons.mp hc with hc | hc
        · subst hc
          simp
          omega
        · exact ihm c hc

lemma chunksExact_spec (k : Nat) (hk : 0 < k) (xs : List Nat) (hdvd : k ∣ xs.length) :
    (chunksExact k xs).flatten = xs ∧
    (chunksExact k xs).length = xs.length / k ∧
    ∀ c ∈ chunksExact k xs, c.length = k := by
  unfold chunksExact
  exact chunksExactGo_spec k hk xs.length xs (Nat.le_mul_of_pos_right _ hk) hdvd

/-- C9: the pieces-field deserializer fails with an error exactly when the byte
length is not a multiple of 20; when it is a multiple of 20 it yields
length/20 piece hashes of exactly 20 bytes each, in input order (their
concatenation is the input). -/
theorem hashes_visit_bytes (v : List Nat) :
    (v.length % 20 = 0 →
      visit_bytes v = Except.ok (chunksExact 20 v) ∧
      (chunksExact 20 v).length = v.length / 20 ∧
      (∀ c ∈ chunksExact 20 v, c.length = 20) ∧
      (chunksExact 20 v).flatten = v) ∧
    (v.length % 20 ≠ 0 → ∃ e, visit_bytes v = Except.error e) := by
  constructor
  · intro hmod
    have hdvd : 20 ∣ v.length := Nat.dvd_of_mod_eq_zero hmod
    obtain ⟨hf, hl, hm⟩ := chunksExact_spec 20 (by decide) v hdvd
    refine ⟨?_, hl, hm, hf⟩
    unfold visit_bytes
    rw [if_neg (by omega)]
  · intro hmod
    refine ⟨"length is " ++ toString v.length, ?_⟩
    unfold visit_bytes
    rw [if_pos hmod]

/-- Witness for C9 at a 40-byte input (two hashes) and a 21-byte input
(error). -/
theorem hashes_visit_bytes_witness :
    (visit_bytes (List.replicate 40 0) = Except.ok (chunksExact 20 (List.replicate 40 0)) ∧
     (chunksExact 20 (List.replicate 40 0)).length = (List.replicate 40 (0 : Nat)).length / 20 ∧
     (∀ c ∈ chunksExact 20 (List.replicate 40 0), c.length = 20) ∧
     (chunksExact 20 (List.replicate 40 0)).flatten = List.replicate 40 0) ∧
    (∃ e, visit_bytes (List.replicate 21 0) = Except.error e) :=
  ⟨(hashes_visit_bytes (List.replicate 40 0)).1 (by decide),
   (hashes_visit_bytes (List.replicate 21 0)).2 (by decide)⟩

/-- C10: for torrent metadata whose layout is multi-file, each of the Info,
Peers and DownloadPiece operations reaches the `todo!()` panic instead of
returning a result or an error value; the single-file layout is the only one
handled past parsing. -/
theorem multifile_hits_todo :
    (∀ files, info_layout (Keys.MultiFile files) = LayoutOut.panicked ∧
      peers_length (Keys.MultiFile files) = LayoutOut.panicked ∧
      download_length (Keys.MultiFile files) = LayoutOut.panicked) ∧
    (∀ len, info_layout (Keys.SingleFile len) = LayoutOut.ok len ∧
      peers_length (Keys.SingleFile len) = LayoutOut.ok len ∧
      download_length (Keys.SingleFile len) = LayoutOut.ok len) :=
  ⟨fun _ => ⟨rfl, rfl, rfl⟩, fun _ => ⟨rfl, rfl, rfl⟩⟩
